import Mathlib

/-!
Shallow embedding of the GitHub node crawler (src/node_crawler.py together
with the constants of src/config.py) and proofs about its crawl-fetch-parse-
dedup pipeline.

Python values that flow through the crawler (JSON response bodies, parsed
YAML documents, node records) are modelled by the inductive type `Val`:
None, booleans, integers, strings, lists and string-keyed dictionaries.
Network traffic and the two library calls whose internals are outside the
program (base64 decoding composed with lossy UTF-8 decoding, and
yaml.safe_load) are modelled by an environment `Env` of abstract functions:
a transport exception or a decoding error is an `Except.error`, an HTTP
response carries its status code and the outcome of resp.json().  Each
function of the class GitHubNodeCrawler is translated line by line into a
total Lean function over that environment; a Python statement that can raise
inside a try block becomes an `Except` value, and the enclosing
except-handler becomes the corresponding `.error` branch.
-/

namespace NodeCrawler

/-- Python-like values: None, bool, int, str, list, dict (string keys,
given as an association list in insertion order). -/
inductive Val where
  | vnull
  | vbool (b : Bool)
  | vint (n : Int)
  | vstr (s : String)
  | vlist (xs : List Val)
  | vdict (kvs : List (String × Val))

mutual

/-- Structural equality test on `Val` (models Python `==` on these values). -/
def Val.beq : Val → Val → Bool
  | .vnull, .vnull => true
  | .vbool a, .vbool b => a == b
  | .vint a, .vint b => a == b
  | .vstr a, .vstr b => a == b
  | .vlist xs, .vlist ys => Val.beqList xs ys
  | .vdict xs, .vdict ys => Val.beqKVs xs ys
  | _, _ => false

/-- Elementwise equality test on lists of values. -/
def Val.beqList : List Val → List Val → Bool
  | [], [] => true
  | x :: xs, y :: ys => Val.beq x y && Val.beqList xs ys
  | _, _ => false

/-- Elementwise equality test on key-value lists. -/
def Val.beqKVs : List (String × Val) → List (String × Val) → Bool
  | [], [] => true
  | (k, v) :: xs, (l, w) :: ys => k == l && Val.beq v w && Val.beqKVs xs ys
  | _, _ => false

end

theorem Val.beq_iff : ∀ (a b : Val), (Val.beq a b = true ↔ a = b) := by
  apply Val.beq.induct (fun a b => Val.beq a b = true ↔ a = b)
      (fun xs ys => Val.beqKVs xs ys = true ↔ xs = ys)
      (fun xs ys => Val.beqList xs ys = true ↔ xs = ys)
  case case7 =>
    intro t x h0 h1 h2 h3 h4 h5
    cases t <;> cases x <;> simp_all [Val.beq]
  case case10 =>
    intro t x h0 h1
    match t, x with
    | [], [] => exact (h0 rfl rfl).elim
    | [], b :: bs => simp [Val.beqList]
    | a :: as, [] => simp [Val.beqList]
    | a :: as, b :: bs => exact (h1 a as b bs rfl rfl).elim
  case case13 =>
    intro t x h0 h1
    match t, x with
    | [], [] => exact (h0 rfl rfl).elim
    | [], b :: bs => simp [Val.beqKVs]
    | a :: as, [] => simp [Val.beqKVs]
    | (k, v) :: as, (l, w) :: bs => exact (h1 k v as l w bs rfl rfl).elim
  all_goals intros
  all_goals simp_all [Val.beq, Val.beqList, Val.beqKVs]

instance : DecidableEq Val := fun a b => decidable_of_iff _ (Val.beq_iff a b)

/-- Python truthiness (`bool(v)`) of a modelled value. -/
def Val.truthy : Val → Bool
  | .vnull => false
  | .vbool b => b
  | .vint n => n != 0
  | .vstr s => !s.isEmpty
  | .vlist xs => !xs.isEmpty
  | .vdict kvs => !kvs.isEmpty

/-- Models Python `isinstance(v, str)`. -/
def Val.isStr : Val → Bool
  | .vstr _ => true
  | _ => false

/-- Models Python `isinstance(v, dict)`. -/
def Val.isDict : Val → Bool
  | .vdict _ => true
  | _ => false

/-- First binding of a key in an association list (Python dicts hold each
key once, so this is the dictionary lookup). -/
def lookupKV : List (String × Val) → String → Option Val
  | [], _ => none
  | (k, v) :: rest, key => if k = key then some v else lookupKV rest key

/-- Models Python `d.get(key)`: `none` stands for an absent key (Python
returns None, and the callers below supply their own defaults). On a
non-dict the call would raise AttributeError; the program only applies it
to values already matched as dicts, so `none` there is never relied upon. -/
def Val.get : Val → String → Option Val
  | .vdict kvs, key => lookupKV kvs key
  | _, _ => none

/-- Models Python iteration `for x in v`: a list yields its elements, a
string its one-character substrings, a dict its keys; iterating any other
value raises TypeError, modelled by `Except.error`. -/
def pyIter : Val → Except Unit (List Val)
  | .vlist xs => .ok xs
  | .vstr s => .ok (s.data.map (fun c => Val.vstr (String.mk [c])))
  | .vdict kvs => .ok (kvs.map (fun kv => Val.vstr kv.1))
  | _ => .error ()

/-- Line-break characters recognised by the model of str.splitlines
(the ASCII boundaries: LF, CR, vertical tab, form feed; CRLF is handled
as a single boundary below). -/
def isLineBreak (c : Char) : Bool :=
  c == '\n' || c == '\r' || c == '\x0b' || c == '\x0c'

/-- Worker for `pySplitlines`: `acc` holds the current line reversed. -/
def pySplitlinesGo : List Char → List Char → List String
  | [], acc => if acc.isEmpty then [] else [String.mk acc.reverse]
  | '\r' :: '\n' :: rest, acc => String.mk acc.reverse :: pySplitlinesGo rest []
  | c :: rest, acc =>
    if isLineBreak c then String.mk acc.reverse :: pySplitlinesGo rest []
    else pySplitlinesGo rest (c :: acc)

/-- Models Python str.splitlines(): splits at line boundaries, treats CRLF
as one boundary, and produces no trailing empty line. -/
def pySplitlines (s : String) : List String :=
  pySplitlinesGo s.data []

/-- Whitespace stripped by the model of str.strip() (the ASCII whitespace
characters). -/
def pyWhite (c : Char) : Bool :=
  c == ' ' || c == '\t' || c == '\n' || c == '\r' || c == '\x0b' || c == '\x0c'

/-- Models Python str.strip(): removes leading and trailing whitespace. -/
def pyStrip (s : String) : String :=
  String.mk (((s.data.dropWhile pyWhite).reverse.dropWhile pyWhite).reverse)

/-- Does the first character list begin with the second? -/
def charsBeginWith : List Char → List Char → Bool
  | _, [] => true
  | [], _ :: _ => false
  | c :: cs, p :: ps => c == p && charsBeginWith cs ps

/-- Models Python s.startswith(pre). -/
def strStartsWith (s pre : String) : Bool :=
  charsBeginWith s.data pre.data

/-- Models Python s.endswith(post). -/
def strEndsWith (s post : String) : Bool :=
  charsBeginWith s.data.reverse post.data.reverse

/-- Models Python s.lower() (ASCII case mapping, which covers the
extensions the crawler compares). -/
def strToLower (s : String) : String :=
  String.mk (s.data.map Char.toLower)

/-- An HTTP response as the crawler observes it: the status code, and the
outcome of resp.json() (`Except.error` models a body that raises on JSON
decoding). resp.text is only interpolated into log messages, which the
embedding drops. -/
structure Response where
  status : Int
  jsonBody : Except Unit Val

/-- The crawler's surroundings: the configured default branch
(config.DEFAULT_BRANCH), the two GitHub endpoints the session queries, and
the two library calls treated as black boxes.  `treeResp repo branch` is
the outcome of GET /repos/{repo}/git/trees/{branch}?recursive=1 and
`fileResp repo path` of GET /repos/{repo}/contents/{path}; `Except.error`
models a transport exception from session.get.  `b64 s` is
base64.b64decode(s).decode("utf-8", errors="ignore"), erring on invalid
base64; `yamlLoad s` is yaml.safe_load(s), erring when parsing raises. -/
structure Env where
  default_branch : String
  treeResp : String → String → Except Unit Response
  fileResp : String → String → Except Unit Response
  b64 : String → Except Unit String
  yamlLoad : String → Except Unit Val

/-- GitHubNodeCrawler.get_github_file_content (src/node_crawler.py lines
33-70).  A 200 response with a dict body carrying encoding "base64" returns
the decoded content; a 200 dict body whose "content" value is a string
returns it directly; every other outcome — transport exception, non-200
status (404, 403 and the rest), a body that fails JSON decoding, a
non-dict body, an unrecognized dict body, a missing or non-string
"content" under base64 encoding, or a base64 decoding failure — falls
through the logging branches or the except-handler and returns "". -/
def get_github_file_content (env : Env) (repo filePath : String) : String :=
  match env.fileResp repo filePath with
  | .error _ => ""
  | .ok resp =>
    if resp.status = 200 then
      match resp.jsonBody with
      | .error _ => ""
      | .ok data =>
        match data with
        | Val.vdict _ =>
          if data.get "encoding" = some (Val.vstr "base64") then
            match data.get "content" with
            | some (Val.vstr raw) =>
              match env.b64 raw with
              | .ok decoded => decoded
              | .error _ => ""
            | some _ => ""
            | none => ""
          else
            match data.get "content" with
            | some (Val.vstr s) => s
            | _ => ""
        | _ => ""
    else ""

/-- The file extensions search_github_files keeps (src/node_crawler.py
line 100). -/
def candidateExts : List String := [".yaml", ".yml", ".txt", ".json"]

/-- The per-item body of the tree loop in search_github_files (lines
94-102): a non-dict item makes item.get raise, a blob item whose path
value is not a string makes path.endswith raise (both modelled by
`Except.error`, caught by the enclosing handler); otherwise a blob path
ending in a candidate extension is appended. -/
def processItems : List Val → Except Unit (List String)
  | [] => .ok []
  | item :: rest =>
    match item with
    | Val.vdict _ =>
      if item.get "type" = some (Val.vstr "blob") then
        match (item.get "path").getD (Val.vstr "") with
        | Val.vstr p =>
          match processItems rest with
          | .ok files =>
            if candidateExts.any (fun e => strEndsWith p e) then .ok (p :: files)
            else .ok files
          | .error e => .error e
        | _ => .error ()
      else processItems rest
    | _ => .error ()

/-- Processing of a 200 tree response body in search_github_files (lines
92-108): data.get("tree", []) raises on a non-dict body, iterating a
non-iterable "tree" value raises, then the item loop runs. -/
def processBody (data : Val) : Except Unit (List String) :=
  match data with
  | Val.vdict _ =>
    match pyIter ((data.get "tree").getD (Val.vlist [])) with
    | .ok items => processItems items
    | .error e => .error e
  | _ => .error ()

/-- The branch loop of search_github_files (lines 81-123): branches already
tried are skipped; a branch whose request, JSON decoding or tree processing
fails is logged and the next one tried; the first branch that yields a
processed file list returns it at once. -/
def tryBranches (env : Env) (repo : String) : List String → List String → List String
  | [], _ => []
  | b :: rest, tried =>
    if b ∈ tried then tryBranches env repo rest tried
    else
      match env.treeResp repo b with
      | .error _ => tryBranches env repo rest (b :: tried)
      | .ok resp =>
        if resp.status = 200 then
          match resp.jsonBody with
          | .error _ => tryBranches env repo rest (b :: tried)
          | .ok data =>
            match processBody data with
            | .ok files => files
            | .error _ => tryBranches env repo rest (b :: tried)
        else tryBranches env repo rest (b :: tried)

/-- GitHubNodeCrawler.search_github_files (lines 72-126): tries
DEFAULT_BRANCH, "master", "main" in order and returns [] when no branch
succeeds. -/
def search_github_files (env : Env) (repo : String) : List String :=
  tryBranches env repo [env.default_branch, "master", "main"] []

/-- Models Python `v or "unknown"` for the type and name fields of a Clash
node (lines 144-145). -/
def orUnknown (v : Val) : Val :=
  if v.truthy then v else Val.vstr "unknown"

/-- The node dict built for one proxy entry in parse_clash_yaml (lines
143-149): type and name default to "unknown" when absent or falsy, server
and port are p.get values (None when absent), config is the whole proxy
mapping. -/
def mkClashNode (p : Val) : Val :=
  Val.vdict [("type", orUnknown ((p.get "type").getD Val.vnull)),
             ("name", orUnknown ((p.get "name").getD Val.vnull)),
             ("server", (p.get "server").getD Val.vnull),
             ("port", (p.get "port").getD Val.vnull),
             ("config", p)]

/-- The proxy loop of parse_clash_yaml (lines 140-151): non-dict entries
are skipped, and a node is kept only when its server and port are truthy. -/
def clashLoop : List Val → List Val
  | [] => []
  | p :: rest =>
    match p with
    | Val.vdict _ =>
      if ((p.get "server").getD Val.vnull).truthy
          && ((p.get "port").getD Val.vnull).truthy
      then mkClashNode p :: clashLoop rest
      else clashLoop rest
    | _ => clashLoop rest

/-- GitHubNodeCrawler.parse_clash_yaml (lines 130-157), taking the outcome
of yaml.safe_load(content) as input: a parse exception or a non-dict
document yields []; data.get("proxies") falls back to [] when falsy
(`or []`); iterating a truthy non-iterable "proxies" raises, caught by the
handler, yielding []. -/
def parse_clash_yaml (doc : Except Unit Val) : List Val :=
  match doc with
  | .error _ => []
  | .ok data =>
    match data with
    | Val.vdict _ =>
      match pyIter (if ((data.get "proxies").getD Val.vnull).truthy
                    then (data.get "proxies").getD Val.vnull
                    else Val.vlist []) with
      | .ok ps => clashLoop ps
      | .error _ => []
    | _ => []

/-- The proxy-link schemes recognised by parse_links_from_text (line 168). -/
def linkPrefixes : List String := ["ss://", "vmess://", "trojan://", "vless://"]

/-- The node dict built for one matching line in parse_links_from_text
(lines 171-177). -/
def mkLinkNode (line : String) : Val :=
  Val.vdict [("type", Val.vstr "url"),
             ("name", Val.vstr "raw-link"),
             ("server", Val.vnull),
             ("port", Val.vnull),
             ("config", Val.vdict [("link", Val.vstr line)])]

/-- The line loop of parse_links_from_text (lines 162-178): each line is
stripped, empty lines are skipped, and a line starting with a recognised
scheme becomes a node. -/
def linksLoop : List String → List Val
  | [] => []
  | raw :: rest =>
    if pyStrip raw = "" then linksLoop rest
    else if linkPrefixes.any (fun pre => strStartsWith (pyStrip raw) pre) then
      mkLinkNode (pyStrip raw) :: linksLoop rest
    else linksLoop rest

/-- GitHubNodeCrawler.parse_links_from_text (lines 159-181). -/
def parse_links_from_text (content : String) : List Val :=
  linksLoop (pySplitlines content)

/-- GitHubNodeCrawler.parse_nodes_from_file (lines 183-193): dispatch on
the lower-cased path suffix. -/
def parse_nodes_from_file (env : Env) (filePath content : String) : List Val :=
  if strEndsWith (strToLower filePath) ".yaml" || strEndsWith (strToLower filePath) ".yml" then
    parse_clash_yaml (env.yamlLoad content)
  else if strEndsWith (strToLower filePath) ".txt" then
    parse_links_from_text content
  else if strEndsWith (strToLower filePath) ".json" then
    []
  else []

/-- The file loop of crawl_repo (lines 203-208): files whose fetched
content is empty (falsy) are skipped, the parsed nodes of the rest are
concatenated in order. -/
def crawlFilesLoop (env : Env) (repo : String) : List String → List Val
  | [] => []
  | p :: rest =>
    if get_github_file_content env repo p = "" then crawlFilesLoop env repo rest
    else parse_nodes_from_file env p (get_github_file_content env repo p)
          ++ crawlFilesLoop env repo rest

/-- GitHubNodeCrawler.crawl_repo (lines 197-211). -/
def crawl_repo (env : Env) (repo : String) : List Val :=
  crawlFilesLoop env repo (search_github_files env repo)

/-- The deduplication key of crawl_all (line 230):
(n.get("type"), n.get("server"), n.get("port"), n.get("name")). -/
abbrev NodeKey := Option Val × Option Val × Option Val × Option Val

/-- The key of one node record (line 230). -/
def nodeKey (n : Val) : NodeKey :=
  (n.get "type", n.get "server", n.get "port", n.get "name")

/-- One step of the dedup loop of crawl_all (lines 229-234): the state is
(all_nodes, seen); a node whose key was seen is dropped, otherwise it is
appended and its key recorded. -/
def dedupOne (st : List Val × List NodeKey) (n : Val) : List Val × List NodeKey :=
  if nodeKey n ∈ st.2 then st else (st.1 ++ [n], st.2 ++ [nodeKey n])

/-- GitHubNodeCrawler.crawl_all (lines 213-237) applied to an explicit
repository list (when called with None it uses config.GITHUB_REPOS, which
is such a list): crawls each repository in order and keeps the first
record of each key. -/
def crawl_all (env : Env) (repos : List String) : List Val :=
  (repos.foldl (fun st repo => (crawl_repo env repo).foldl dedupOne st) ([], [])).1

/-- The stream of records crawl_all deduplicates: the records of each
repository, in the order the repositories are given and their nodes
produced. -/
def crawlStream (env : Env) : List String → List Val
  | [] => []
  | r :: rest => crawl_repo env r ++ crawlStream env rest

/-- Follows the claim's words: keep each record that is the first in the
stream with its (type, server, port, name) key, dropping every later
record with a key already kept. -/
def dedupByKeySpec (l : List Val) : List Val :=
  match l with
  | [] => []
  | n :: rest =>
    n :: dedupByKeySpec (rest.filter (fun m => !decide (nodeKey m = nodeKey n)))
termination_by l.length
decreasing_by
  simp only [List.length_cons]
  exact Nat.lt_succ_of_le (List.length_filter_le _ _)

/-- The dedup loop of crawl_all with the accumulated output dropped: only
the records appended after a given seen-set. Used to relate `crawl_all`
to `dedupByKeySpec`. -/
def goPure (seen : List NodeKey) : List Val → List Val
  | [] => []
  | n :: rest =>
    if nodeKey n ∈ seen then goPure seen rest
    else n :: goPure (seen ++ [nodeKey n]) rest

/-- Follows the claim's words for one branch: the attempt succeeds when the
tree request returns HTTP 200 and its body decodes and processes into a
candidate list; otherwise it fails. -/
def branchAttempt (env : Env) (repo branch : String) : Option (List String) :=
  match env.treeResp repo branch with
  | .error _ => none
  | .ok resp =>
    if resp.status = 200 then
      match resp.jsonBody with
      | .ok data =>
        match processBody data with
        | .ok files => some files
        | .error _ => none
      | .error _ => none
    else none

/-- The candidate list of the first branch in the list whose attempt
succeeds. -/
def firstAttempt (env : Env) (repo : String) : List String → Option (List String)
  | [] => none
  | b :: rest =>
    match branchAttempt env repo b with
    | some files => some files
    | none => firstAttempt env repo rest

/-- Follows the claim's words: the branch order DEFAULT_BRANCH, "master",
"main" with any branch name already tried skipped. -/
def branchPlan (d : String) : List String :=
  if d = "master" then ["master", "main"]
  else if d = "main" then ["main", "master"]
  else [d, "master", "main"]

/-- Follows the claim's words for one tree item: a candidate is the path of
an item of type "blob" that ends with a candidate extension (the item must
be a mapping and its path a string for the tree walk not to raise). -/
def blobCandidate (item : Val) : Option String :=
  if item.get "type" = some (Val.vstr "blob") then
    match (item.get "path").getD (Val.vstr "") with
    | Val.vstr p =>
      if candidateExts.any (fun e => strEndsWith p e) then some p else none
    | _ => none
  else none

/-- The deduplication key shared by every record of parse_links_from_text:
type "url", server None, port None, name "raw-link". -/
def urlNodeKey : NodeKey :=
  (some (Val.vstr "url"), some Val.vnull, some Val.vnull, some (Val.vstr "raw-link"))

/-- The five fields of a normalized node record, in construction order. -/
def nodeFields : List String := ["type", "name", "server", "port", "config"]

/-- The field names of a record, in order (`none` on a non-dict). -/
def recordFields (n : Val) : Option (List String) :=
  match n with
  | Val.vdict kvs => some (kvs.map (fun kv => kv.1))
  | _ => none

/-- An environment in which every request and library call fails. -/
def envNone : Env where
  default_branch := "main"
  treeResp := fun _ _ => .error ()
  fileResp := fun _ _ => .error ()
  b64 := fun _ => .error ()
  yamlLoad := fun _ => .error ()

/-- An environment whose file endpoint answers 404 for every path. -/
def env404 : Env where
  default_branch := "main"
  treeResp := fun _ _ => .error ()
  fileResp := fun _ _ => .ok { status := 404, jsonBody := .error () }
  b64 := fun _ => .error ()
  yamlLoad := fun _ => .error ()

/-- A tree body holding one blob a.txt, used by the branch-order
counterexample. -/
def treeC3 : Val :=
  Val.vdict [("tree", Val.vlist
    [Val.vdict [("type", Val.vstr "blob"), ("path", Val.vstr "a.txt")]])]

/-- Branch behaviour A: the default branch "main" answers 200 with a JSON
array body (data.get("tree", []) then raises AttributeError), and "master"
answers 200 with a well-formed tree. -/
def envC3A : Env where
  default_branch := "main"
  treeResp := fun _ b =>
    if b = "main" then .ok { status := 200, jsonBody := .ok (Val.vlist []) }
    else if b = "master" then .ok { status := 200, jsonBody := .ok treeC3 }
    else .error ()
  fileResp := fun _ _ => .error ()
  b64 := fun _ => .error ()
  yamlLoad := fun _ => .error ()

/-- Branch behaviour B: identical to `envC3A` on the default branch "main",
but "master" fails with a transport exception. -/
def envC3B : Env where
  default_branch := "main"
  treeResp := fun _ b =>
    if b = "main" then .ok { status := 200, jsonBody := .ok (Val.vlist []) }
    else .error ()
  fileResp := fun _ _ => .error ()
  b64 := fun _ => .error ()
  yamlLoad := fun _ => .error ()

/-- A proxy entry whose type is the integer 7 (truthy but not a string)
and whose name is absent. -/
def proxyC8 : Val :=
  Val.vdict [("type", Val.vint 7), ("server", Val.vstr "s"), ("port", Val.vint 80)]

/-- A Clash document holding `proxyC8` as its only proxy. -/
def docC8 : Val := Val.vdict [("proxies", Val.vlist [proxyC8])]

/-- A proxy entry that declares type "url" itself. -/
def proxyC9 : Val :=
  Val.vdict [("type", Val.vstr "url"), ("name", Val.vstr "n1"),
             ("server", Val.vstr "srv"), ("port", Val.vint 443)]

/-- An environment with one repository exposing a Clash file whose proxy
declares type "url" and a text file holding one proxy link: crawl_all then
keeps two records whose type field is "url". -/
def envC9 : Env where
  default_branch := "main"
  treeResp := fun _ b =>
    if b = "main" then
      .ok { status := 200, jsonBody := .ok (Val.vdict [("tree", Val.vlist
        [Val.vdict [("type", Val.vstr "blob"), ("path", Val.vstr "a.yaml")],
         Val.vdict [("type", Val.vstr "blob"), ("path", Val.vstr "b.txt")]])]) }
    else .error ()
  fileResp := fun _ p =>
    if p = "a.yaml" then
      .ok { status := 200, jsonBody := .ok (Val.vdict [("content", Val.vstr "clash-src")]) }
    else if p = "b.txt" then
      .ok { status := 200, jsonBody := .ok (Val.vdict [("content", Val.vstr "ss://link1")]) }
    else .error ()
  b64 := fun _ => .error ()
  yamlLoad := fun s =>
    if s = "clash-src" then .ok (Val.vdict [("proxies", Val.vlist [proxyC9])])
    else .error ()

/-- A well-formed tree item list with two blobs and one tree item, used as
a concrete witness input. -/
def itemsC7 : List Val :=
  [Val.vdict [("type", Val.vstr "blob"), ("path", Val.vstr "conf/a.yaml")],
   Val.vdict [("type", Val.vstr "tree"), ("path", Val.vstr "dir")],
   Val.vdict [("type", Val.vstr "blob"), ("path", Val.vstr "README.md")]]

theorem foldl_dedupOne_fst : ∀ (l : List Val) (acc : List Val) (seen : List NodeKey),
    (l.foldl dedupOne (acc, seen)).1 = acc ++ goPure seen l
  | [], acc, seen => by simp [goPure]
  | n :: rest, acc, seen => by
    by_cases h : nodeKey n ∈ seen
    · simp [List.foldl_cons, dedupOne, h, goPure, foldl_dedupOne_fst rest acc seen]
    · simp [List.foldl_cons, dedupOne, h, goPure,
        foldl_dedupOne_fst rest (acc ++ [n]) (seen ++ [nodeKey n])]

theorem foldl_crawlStream (env : Env) : ∀ (repos : List String) (st : List Val × List NodeKey),
    repos.foldl (fun st repo => (crawl_repo env repo).foldl dedupOne st) st
      = (crawlStream env repos).foldl dedupOne st
  | [], _ => rfl
  | r :: rest, st => by
    simp [crawlStream, List.foldl_append, List.foldl_cons, foldl_crawlStream env rest]

theorem goPure_eq_dedupSpec : ∀ (l : List Val) (seen : List NodeKey),
    goPure seen l = dedupByKeySpec (l.filter (fun n => !decide (nodeKey n ∈ seen)))
  | [], seen => by simp [goPure, dedupByKeySpec]
  | n :: rest, seen => by
    by_cases h : nodeKey n ∈ seen
    · simp only [goPure, h, if_true, List.filter_cons, decide_eq_true_eq]
      rw [goPure_eq_dedupSpec rest seen]
      simp [h]
    · simp only [goPure, h, if_false, List.filter_cons]
      rw [if_pos (by simp)]
      simp only [dedupByKeySpec, List.filter_filter]
      rw [goPure_eq_dedupSpec rest (seen ++ [nodeKey n])]
      congr 2
      apply List.filter_congr
      intro m _
      simp [List.mem_append, not_or, Bool.and_comm]

theorem mem_dedupByKeySpec : ∀ (l : List Val) (x : Val), x ∈ dedupByKeySpec l → x ∈ l := by
  intro l
  induction l using dedupByKeySpec.induct with
  | case1 => intro x hx; simp [dedupByKeySpec] at hx
  | case2 n rest ih =>
    intro x hx
    rw [dedupByKeySpec] at hx
    rcases List.mem_cons.1 hx with h | h
    · exact h ▸ List.mem_cons_self _ _
    · exact List.mem_cons_of_mem _ (List.mem_of_mem_filter (ih x h))

theorem dedupByKeySpec_pairwise :
    ∀ (l : List Val), (dedupByKeySpec l).Pairwise (fun a b => nodeKey a ≠ nodeKey b) := by
  intro l
  induction l using dedupByKeySpec.induct with
  | case1 => simp [dedupByKeySpec]
  | case2 n rest ih =>
    rw [dedupByKeySpec]
    refine List.Pairwise.cons ?_ ih
    intro b hb
    have := List.of_mem_filter (mem_dedupByKeySpec _ b hb)
    simp at this
    exact fun he => this he.symm

theorem crawl_all_eq_dedupSpec (env : Env) (repos : List String) :
    crawl_all env repos = dedupByKeySpec (crawlStream env repos) := by
  rw [crawl_all, foldl_crawlStream, foldl_dedupOne_fst]
  rw [goPure_eq_dedupSpec]
  simp only [List.nil_append]
  congr 1
  apply (List.filter_eq_self).2
  intro a _
  simp

theorem crawl_all_pairwise (env : Env) (repos : List String) :
    (crawl_all env repos).Pairwise (fun a b => nodeKey a ≠ nodeKey b) := by
  rw [crawl_all_eq_dedupSpec]
  exact dedupByKeySpec_pairwise _



theorem countP_le_one_of_pairwise : ∀ (l : List Val) (k : NodeKey),
    l.Pairwise (fun a b => nodeKey a ≠ nodeKey b) →
    l.countP (fun n => decide (nodeKey n = k)) ≤ 1 := by
  intro l k h
  induction l with
  | nil => simp
  | cons a t ih =>
    rcases List.pairwise_cons.1 h with ⟨ha, ht⟩
    by_cases hk : nodeKey a = k
    · have hz : t.countP (fun n => decide (nodeKey n = k)) = 0 := by
        apply List.countP_eq_zero.2
        intro b hb
        simp only [decide_eq_true_eq]
        rw [← hk]
        exact fun he => (ha b hb) he.symm
      simp [List.countP_cons, hk, hz]
    · simp only [List.countP_cons, hk, decide_False, if_false]
      simpa using ih ht

theorem nodeKey_mkLinkNode (s : String) : nodeKey (mkLinkNode s) = urlNodeKey := rfl

theorem mem_linksLoop : ∀ (ls : List String) (n : Val),
    n ∈ linksLoop ls → ∃ s, n = mkLinkNode s
  | [], n, h => by simp [linksLoop] at h
  | raw :: rest, n, h => by
    rw [linksLoop] at h
    by_cases h1 : pyStrip raw = ""
    · rw [if_pos h1] at h
      exact mem_linksLoop rest n h
    · rw [if_neg h1] at h
      by_cases h2 : linkPrefixes.any (fun pre => strStartsWith (pyStrip raw) pre) = true
      · rw [if_pos h2] at h
        rcases List.mem_cons.1 h with h3 | h3
        · exact ⟨pyStrip raw, h3⟩
        · exact mem_linksLoop rest n h3
      · rw [if_neg h2] at h
        exact mem_linksLoop rest n h

theorem linksLoop_eq : ∀ (ls : List String),
    linksLoop ls =
      ((ls.map pyStrip).filter
        (fun l => linkPrefixes.any (fun pre => strStartsWith l pre))).map mkLinkNode
  | [] => rfl
  | raw :: rest => by
    rw [linksLoop]
    by_cases h1 : pyStrip raw = ""
    · rw [if_pos h1]
      have h2 : (linkPrefixes.any (fun pre => strStartsWith (pyStrip raw) pre)) = false := by
        rw [h1]; decide
      simp [List.filter_cons, h2, linksLoop_eq rest]
    · rw [if_neg h1]
      by_cases h2 : linkPrefixes.any (fun pre => strStartsWith (pyStrip raw) pre) = true
      · rw [if_pos h2]
        simp [List.filter_cons, h2, linksLoop_eq rest]
      · rw [if_neg h2]
        simp only [Bool.not_eq_true] at h2
        simp [List.filter_cons, h2, linksLoop_eq rest]

theorem orUnknown_truthy (v : Val) : (orUnknown v).truthy = true := by
  rw [orUnknown]
  by_cases h : v.truthy = true
  · rw [if_pos h]; exact h
  · rw [if_neg h]; decide

theorem mem_clashLoop : ∀ (ps : List Val) (n : Val),
    n ∈ clashLoop ps → ∃ p, n = mkClashNode p
  | [], n, h => by simp [clashLoop] at h
  | p :: rest, n, h => by
    cases p with
    | vdict kvs =>
      rw [clashLoop] at h
      by_cases hc : ((((Val.vdict kvs).get "server").getD Val.vnull).truthy
          && (((Val.vdict kvs).get "port").getD Val.vnull).truthy) = true
      · rw [if_pos hc] at h
        rcases List.mem_cons.1 h with h3 | h3
        · exact ⟨Val.vdict kvs, h3⟩
        · exact mem_clashLoop rest n h3
      · rw [if_neg hc] at h
        exact mem_clashLoop rest n h
    | vnull => exact mem_clashLoop rest n h
    | vbool b => exact mem_clashLoop rest n h
    | vint i => exact mem_clashLoop rest n h
    | vstr s => exact mem_clashLoop rest n h
    | vlist xs => exact mem_clashLoop rest n h

theorem clashLoop_eq : ∀ (ps : List Val),
    clashLoop ps =
      (ps.filter (fun p => p.isDict
        && (((p.get "server").getD Val.vnull).truthy
        && ((p.get "port").getD Val.vnull).truthy))).map mkClashNode
  | [] => rfl
  | p :: rest => by
    cases p with
    | vdict kvs =>
      rw [clashLoop]
      by_cases hc : ((((Val.vdict kvs).get "server").getD Val.vnull).truthy
          && (((Val.vdict kvs).get "port").getD Val.vnull).truthy) = true
      · rw [if_pos hc]
        simp [List.filter_cons, Val.isDict, hc, clashLoop_eq rest]
      · rw [if_neg hc]
        simp only [Bool.not_eq_true] at hc
        simp [List.filter_cons, Val.isDict, hc, clashLoop_eq rest]
    | vnull => simp [clashLoop, List.filter_cons, Val.isDict, clashLoop_eq rest]
    | vbool b => simp [clashLoop, List.filter_cons, Val.isDict, clashLoop_eq rest]
    | vint i => simp [clashLoop, List.filter_cons, Val.isDict, clashLoop_eq rest]
    | vstr s => simp [clashLoop, List.filter_cons, Val.isDict, clashLoop_eq rest]
    | vlist xs => simp [clashLoop, List.filter_cons, Val.isDict, clashLoop_eq rest]



theorem processItems_eq (items : List Val) :
    ∀ (fs : List String), processItems items = Except.ok fs →
      fs = items.filterMap blobCandidate := by
  induction items using processItems.induct with
  | case1 =>
    intro fs h
    simp only [processItems, Except.ok.injEq] at h
    simp [← h]
  | case2 rest kvs s files hrest hext hblob hpath ih =>
    intro fs h
    simp only [processItems, hblob, hpath, hrest, hext, if_pos, if_true, Except.ok.injEq] at h
    simp only [List.filterMap_cons, blobCandidate, hblob, if_pos, hpath, hext, if_true]
    rw [← ih files hrest]
    exact h.symm
  | case3 rest kvs s files hrest hext hblob hpath ih =>
    intro fs h
    rw [Bool.not_eq_true] at hext
    simp only [processItems, hblob, hpath, hrest, hext, Bool.false_eq_true, if_false,
      Except.ok.injEq] at h
    simp only [List.filterMap_cons, blobCandidate, hblob, if_pos, hpath, hext,
      Bool.false_eq_true, if_false]
    rw [← ih files hrest]
    simp only [ite_self, Except.ok.injEq] at h
    exact h.symm
  | case4 rest kvs s e hrest hblob hpath ih =>
    intro fs h
    simp [processItems, hblob, hpath, hrest] at h
  | case5 rest kvs hblob hpath =>
    intro fs h
    rw [processItems] at h
    rcases hp : ((Val.vdict kvs).get "path").getD (Val.vstr "") with _ | b | i | q | xs | ds
    · rw [if_pos hblob, hp] at h; cases h
    · rw [if_pos hblob, hp] at h; cases h
    · rw [if_pos hblob, hp] at h; cases h
    · exact absurd hp (by intro hc; exact hpath q hc)
    · rw [if_pos hblob, hp] at h; cases h
    · rw [if_pos hblob, hp] at h; cases h
  | case6 rest kvs hblob ih =>
    intro fs h
    rw [processItems, if_neg hblob] at h
    rw [List.filterMap_cons]
    simp only [blobCandidate, hblob, if_neg, if_false]
    exact ih fs h
  | case7 item rest hnd =>
    intro fs h
    cases item with
    | vdict kvs => exact absurd rfl (fun hc => hnd kvs hc)
    | vnull => cases h
    | vbool b => cases h
    | vint i => cases h
    | vstr s => cases h
    | vlist xs => cases h

theorem blobCandidate_ext (item : Val) (p : String) (h : blobCandidate item = some p) :
    candidateExts.any (fun e => strEndsWith p e) = true := by
  rw [blobCandidate] at h
  by_cases hb : item.get "type" = some (Val.vstr "blob")
  · rw [if_pos hb] at h
    rcases hp : (item.get "path").getD (Val.vstr "") with _ | b | i | q | xs | ds
    · rw [hp] at h; cases h
    · rw [hp] at h; cases h
    · rw [hp] at h; cases h
    · rw [hp] at h
      have h2 : (if (candidateExts.any fun e => strEndsWith q e) = true
          then some q else none) = some p := h
      by_cases he : candidateExts.any (fun e => strEndsWith q e) = true
      · rw [if_pos he] at h2
        cases h2
        exact he
      · rw [if_neg he] at h2; cases h2
    · rw [hp] at h; cases h
    · rw [hp] at h; cases h
  · rw [if_neg hb] at h; cases h

theorem processBody_mem_ext (data : Val) (fs : List String)
    (h : processBody data = Except.ok fs) :
    ∀ p ∈ fs, candidateExts.any (fun e => strEndsWith p e) = true := by
  intro p hp
  cases data with
  | vdict kvs =>
    rw [processBody] at h
    rcases hi : pyIter (((Val.vdict kvs).get "tree").getD (Val.vlist [])) with e | items
    · rw [hi] at h; cases h
    · rw [hi] at h
      rw [processItems_eq items fs h] at hp
      rcases List.mem_filterMap.1 hp with ⟨item, _, hbc⟩
      exact blobCandidate_ext item p hbc
  | vnull => cases h
  | vbool b => cases h
  | vint i => cases h
  | vstr s => cases h
  | vlist xs => cases h

theorem tryBranches_ext (env : Env) (repo : String) (bs tried : List String) :
    ∀ p ∈ tryBranches env repo bs tried, candidateExts.any (fun e => strEndsWith p e) = true := by
  induction bs, tried using tryBranches.induct env repo with
  | case1 x => intro p hp; simp [tryBranches] at hp
  | case2 b rest tried hmem ih =>
    intro p hp
    rw [tryBranches, if_pos hmem] at hp
    exact ih p hp
  | case3 b rest tried hmem a henv ih =>
    intro p hp
    simp only [tryBranches, hmem, if_false, henv] at hp
    exact ih p hp
  | case4 b rest tried hmem resp henv hst a hjson ih =>
    intro p hp
    simp only [tryBranches, hmem, if_false, henv, hst, eq_self_iff_true, if_true, hjson] at hp
    exact ih p hp
  | case5 b rest tried hmem resp henv hst data hjson files hpb =>
    intro p hp
    simp only [tryBranches, hmem, if_false, henv, hst, eq_self_iff_true, if_true, hjson,
      hpb] at hp
    exact processBody_mem_ext data files hpb p hp
  | case6 b rest tried hmem resp henv hst data hjson e hpb ih =>
    intro p hp
    simp only [tryBranches, hmem, if_false, henv, hst, eq_self_iff_true, if_true, hjson,
      hpb] at hp
    exact ih p hp
  | case7 b rest tried hmem resp henv hst ih =>
    intro p hp
    simp only [tryBranches, hmem, if_false, henv, hst, if_false] at hp
    exact ih p hp



theorem firstAttempt_cons (env : Env) (repo b : String) (rest : List String) :
    firstAttempt env repo (b :: rest) =
      match branchAttempt env repo b with
      | some files => some files
      | none => firstAttempt env repo rest := rfl

theorem firstAttempt_skip (env : Env) (repo b : String) (tried : List String)
    (hb : branchAttempt env repo b = none) :
    ∀ (l : List String),
      firstAttempt env repo (l.filter (fun x => !decide (x ∈ b :: tried))) =
      firstAttempt env repo (l.filter (fun x => !decide (x ∈ tried)))
  | [] => rfl
  | x :: l => by
    by_cases hx : x = b
    · subst hx
      by_cases ht : x ∈ tried
      · have h1 : (!decide (x ∈ x :: tried)) = false := by simp
        have h2 : (!decide (x ∈ tried)) = false := by simp [ht]
        simp only [List.filter_cons, h1, h2, if_false]
        exact firstAttempt_skip env repo x tried hb l
      · have h1 : (!decide (x ∈ x :: tried)) = false := by simp
        have h2 : (!decide (x ∈ tried)) = true := by simp [ht]
        simp only [List.filter_cons, h1, h2, if_false, if_true]
        rw [firstAttempt_cons, hb]
        exact firstAttempt_skip env repo x tried hb l
    · have hmm : (x ∈ b :: tried) ↔ (x ∈ tried) := by
        simp [List.mem_cons, hx]
      by_cases ht : x ∈ tried
      · have h1 : (!decide (x ∈ b :: tried)) = false := by simp [hmm, ht]
        have h2 : (!decide (x ∈ tried)) = false := by simp [ht]
        simp only [List.filter_cons, h1, h2, if_false]
        exact firstAttempt_skip env repo b tried hb l
      · have h1 : (!decide (x ∈ b :: tried)) = true := by simp [hmm, ht]
        have h2 : (!decide (x ∈ tried)) = true := by simp [ht]
        simp only [List.filter_cons, h1, h2, if_true]
        rw [firstAttempt_cons, firstAttempt_cons]
        cases ha : branchAttempt env repo x
        · exact firstAttempt_skip env repo b tried hb l
        · rfl

theorem tryBranches_cons_step (env : Env) (repo b : String) (rest tried : List String)
    (hmem : b ∉ tried) :
    tryBranches env repo (b :: rest) tried =
      match branchAttempt env repo b with
      | some files => files
      | none => tryBranches env repo rest (b :: tried) := by
  rcases henv : env.treeResp repo b with a | resp
  · simp only [tryBranches, hmem, if_false, henv, branchAttempt]
  · by_cases hst : resp.status = 200
    · rcases hjson : resp.jsonBody with a | data
      · simp only [tryBranches, hmem, if_false, henv, hst, eq_self_iff_true, if_true,
          hjson, branchAttempt]
      · rcases hpb : processBody data with e | files
        · simp only [tryBranches, hmem, if_false, henv, hst, eq_self_iff_true, if_true,
            hjson, hpb, branchAttempt]
        · simp only [tryBranches, hmem, if_false, henv, hst, eq_self_iff_true, if_true,
            hjson, hpb, branchAttempt]
    · simp only [tryBranches, hmem, if_false, henv, hst, branchAttempt]

theorem tryBranches_eq_firstAttempt (env : Env) (repo : String) (bs : List String) :
    ∀ (tried : List String),
      tryBranches env repo bs tried =
        (firstAttempt env repo (bs.filter (fun b => !decide (b ∈ tried)))).getD [] := by
  induction bs with
  | nil => intro tried; simp [tryBranches, firstAttempt]
  | cons b rest ih =>
    intro tried
    by_cases hmem : b ∈ tried
    · have h1 : (!decide (b ∈ tried)) = false := by simp [hmem]
      rw [tryBranches, if_pos hmem, List.filter_cons, h1]
      simp only [Bool.false_eq_true, if_false]
      exact ih tried
    · have h1 : (!decide (b ∈ tried)) = true := by simp [hmem]
      rw [tryBranches_cons_step env repo b rest tried hmem, List.filter_cons, h1,
        if_pos rfl, firstAttempt_cons]
      rcases hatt : branchAttempt env repo b with _ | files
      · rw [ih (b :: tried), firstAttempt_skip env repo b tried hatt rest]
      · rfl

theorem firstAttempt_plan (env : Env) (repo : String) :
    firstAttempt env repo [env.default_branch, "master", "main"] =
    firstAttempt env repo (branchPlan env.default_branch) := by
  by_cases hm : env.default_branch = "master"
  · rw [branchPlan, if_pos hm, hm]
    cases h1 : branchAttempt env repo "master" <;> simp [firstAttempt, h1]
  · by_cases hn : env.default_branch = "main"
    · rw [branchPlan, if_neg hm, if_pos hn, hn]
      cases h1 : branchAttempt env repo "main" <;>
        cases h2 : branchAttempt env repo "master" <;>
          simp [firstAttempt, h1, h2]
    · rw [branchPlan, if_neg hm, if_neg hn]

theorem search_eq_firstAttempt (env : Env) (repo : String) :
    search_github_files env repo =
      (firstAttempt env repo (branchPlan env.default_branch)).getD [] := by
  rw [search_github_files, tryBranches_eq_firstAttempt]
  have hf : ([env.default_branch, "master", "main"].filter
      (fun b => !decide (b ∈ ([] : List String)))) = [env.default_branch, "master", "main"] := by
    simp
  rw [hf, firstAttempt_plan]



theorem mem_parse_clash_shape (doc : Except Unit Val) (n : Val)
    (h : n ∈ parse_clash_yaml doc) : ∃ p, n = mkClashNode p := by
  rcases doc with e | data
  · simp [parse_clash_yaml] at h
  · cases data with
    | vdict kvs =>
      simp only [parse_clash_yaml] at h
      split at h
      · exact mem_clashLoop _ n h
      · simp at h
    | vnull => simp [parse_clash_yaml] at h
    | vbool b => simp [parse_clash_yaml] at h
    | vint i => simp [parse_clash_yaml] at h
    | vstr s => simp [parse_clash_yaml] at h
    | vlist xs => simp [parse_clash_yaml] at h

theorem mem_parse_nodes_shape (env : Env) (fp content : String) (n : Val)
    (h : n ∈ parse_nodes_from_file env fp content) :
    (∃ p, n = mkClashNode p) ∨ (∃ s, n = mkLinkNode s) := by
  rw [parse_nodes_from_file] at h
  by_cases h1 : (strEndsWith (strToLower fp) ".yaml" || strEndsWith (strToLower fp) ".yml") = true
  · rw [if_pos h1] at h
    exact Or.inl (mem_parse_clash_shape _ n h)
  · rw [if_neg h1] at h
    by_cases h2 : strEndsWith (strToLower fp) ".txt" = true
    · rw [if_pos h2] at h
      exact Or.inr (mem_linksLoop _ n h)
    · rw [if_neg h2] at h
      by_cases h3 : strEndsWith (strToLower fp) ".json" = true
      · rw [if_pos h3] at h; simp at h
      · rw [if_neg h3] at h; simp at h

theorem mem_crawlFilesLoop (env : Env) (repo : String) : ∀ (files : List String) (n : Val),
    n ∈ crawlFilesLoop env repo files →
    ∃ fp content, n ∈ parse_nodes_from_file env fp content
  | [], n, h => by simp [crawlFilesLoop] at h
  | p :: rest, n, h => by
    rw [crawlFilesLoop] at h
    by_cases hc : get_github_file_content env repo p = ""
    · rw [if_pos hc] at h
      exact mem_crawlFilesLoop env repo rest n h
    · rw [if_neg hc] at h
      rcases List.mem_append.1 h with h1 | h1
      · exact ⟨p, get_github_file_content env repo p, h1⟩
      · exact mem_crawlFilesLoop env repo rest n h1

theorem mem_crawlStream (env : Env) : ∀ (repos : List String) (n : Val),
    n ∈ crawlStream env repos → ∃ repo, n ∈ crawl_repo env repo
  | [], n, h => by simp [crawlStream] at h
  | r :: rest, n, h => by
    rw [crawlStream] at h
    rcases List.mem_append.1 h with h1 | h1
    · exact ⟨r, h1⟩
    · exact mem_crawlStream env rest n h1

theorem mem_crawl_all (env : Env) (repos : List String) (n : Val)
    (h : n ∈ crawl_all env repos) : n ∈ crawlStream env repos := by
  rw [crawl_all_eq_dedupSpec] at h
  exact mem_dedupByKeySpec _ n h

theorem crawlFilesLoop_eq (env : Env) (repo : String) : ∀ (files : List String),
    crawlFilesLoop env repo files =
      (files.filter (fun p => !decide (get_github_file_content env repo p = ""))).flatMap
        (fun p => parse_nodes_from_file env p (get_github_file_content env repo p))
  | [] => rfl
  | p :: rest => by
    rw [crawlFilesLoop]
    by_cases hc : get_github_file_content env repo p = ""
    · have h1 : (!decide (get_github_file_content env repo p = "")) = false := by simp [hc]
      rw [if_pos hc, List.filter_cons, h1]
      simp only [Bool.false_eq_true, if_false]
      exact crawlFilesLoop_eq env repo rest
    · have h1 : (!decide (get_github_file_content env repo p = "")) = true := by simp [hc]
      rw [if_neg hc, List.filter_cons, h1, if_pos rfl, List.flatMap_cons]
      rw [crawlFilesLoop_eq env repo rest]



/-- C1: for every environment and repository list, crawl_all keeps no two
records agreeing simultaneously on the four fields type, server, port and
name, and equals the keep-the-first-record-of-each-key filtering of the
stream of records in the order repositories are crawled and their nodes
produced. -/
theorem C1_crawl_all_dedup (env : Env) (repos : List String) :
    (crawl_all env repos).Pairwise (fun a b => nodeKey a ≠ nodeKey b)
    ∧ crawl_all env repos = dedupByKeySpec (crawlStream env repos) :=
  ⟨crawl_all_pairwise env repos, crawl_all_eq_dedupSpec env repos⟩

/-- C2: get_github_file_content returns "" on a transport exception, on any
non-200 status (404 and 403 among them), on a 200 body that fails JSON
decoding, on a non-dict 200 body, and on a dict 200 body that neither
declares base64 encoding nor carries a string content (the embedding is a
total function, so no outcome raises); and crawl_repo drops exactly the
files whose fetched content is empty, parsing the rest in order. -/
theorem C2_fetch_error_handling (env : Env) (repo fp : String) :
    (env.fileResp repo fp = Except.error () → get_github_file_content env repo fp = "")
    ∧ (∀ resp : Response, env.fileResp repo fp = Except.ok resp → resp.status ≠ 200 →
        get_github_file_content env repo fp = "")
    ∧ (∀ resp : Response, env.fileResp repo fp = Except.ok resp →
        resp.jsonBody = Except.error () → get_github_file_content env repo fp = "")
    ∧ (∀ (resp : Response) (data : Val), env.fileResp repo fp = Except.ok resp →
        resp.jsonBody = Except.ok data → data.isDict = false →
        get_github_file_content env repo fp = "")
    ∧ (∀ (resp : Response) (data : Val), env.fileResp repo fp = Except.ok resp →
        resp.jsonBody = Except.ok data →
        data.get "encoding" ≠ some (Val.vstr "base64") →
        (∀ s, data.get "content" ≠ some (Val.vstr s)) →
        get_github_file_content env repo fp = "")
    ∧ crawl_repo env repo = ((search_github_files env repo).filter
        (fun p => !decide (get_github_file_content env repo p = ""))).flatMap
        (fun p => parse_nodes_from_file env p (get_github_file_content env repo p)) := by
  refine ⟨?_, ?_, ?_, ?_, ?_, ?_⟩
  · intro h
    rw [get_github_file_content, h]
  · intro resp h hs
    simp only [get_github_file_content, h, hs, if_false]
  · intro resp h hj
    by_cases hs : resp.status = 200
    · simp only [get_github_file_content, h, hs, eq_self_iff_true, if_true, hj]
    · simp only [get_github_file_content, h, hs, if_false]
  · intro resp data h hj hd
    by_cases hs : resp.status = 200
    · cases data with
      | vdict kvs => simp [Val.isDict] at hd
      | vnull => simp only [get_github_file_content, h, hs, eq_self_iff_true, if_true, hj]
      | vbool b => simp only [get_github_file_content, h, hs, eq_self_iff_true, if_true, hj]
      | vint i => simp only [get_github_file_content, h, hs, eq_self_iff_true, if_true, hj]
      | vstr s => simp only [get_github_file_content, h, hs, eq_self_iff_true, if_true, hj]
      | vlist xs => simp only [get_github_file_content, h, hs, eq_self_iff_true, if_true, hj]
    · simp only [get_github_file_content, h, hs, if_false]
  · intro resp data h hj henc hcont
    by_cases hs : resp.status = 200
    · cases data with
      | vdict kvs =>
        simp only [get_github_file_content, h, hs, eq_self_iff_true, if_true, hj, henc,
          if_false]
      | vnull => simp only [get_github_file_content, h, hs, eq_self_iff_true, if_true, hj]
      | vbool b => simp only [get_github_file_content, h, hs, eq_self_iff_true, if_true, hj]
      | vint i => simp only [get_github_file_content, h, hs, eq_self_iff_true, if_true, hj]
      | vstr s => simp only [get_github_file_content, h, hs, eq_self_iff_true, if_true, hj]
      | vlist xs => simp only [get_github_file_content, h, hs, eq_self_iff_true, if_true, hj]
    · simp only [get_github_file_content, h, hs, if_false]
  · rw [crawl_repo, crawlFilesLoop_eq]

/-- Witness for C2 at concrete failing responses: a transport exception and
a 404 both yield the empty content. -/
theorem C2_witness :
    get_github_file_content envNone "r" "f" = ""
    ∧ get_github_file_content env404 "r" "f" = "" :=
  ⟨(C2_fetch_error_handling envNone "r" "f").1 rfl,
   (C2_fetch_error_handling env404 "r" "f").2.1
     { status := 404, jsonBody := Except.error () } rfl (by decide)⟩

/-- C3 (amended): search_github_files tries DEFAULT_BRANCH, "master",
"main" in order, skipping a branch name already tried, and returns the
candidate list of the first branch whose tree request returns HTTP 200 and
whose body decodes and processes into a candidate list; a 200 response
whose body fails JSON decoding or tree processing is treated like a failed
branch and the next one is tried; when every branch fails the result is
the empty list. -/
theorem C3_branch_order (env : Env) (repo : String) :
    search_github_files env repo =
      (firstAttempt env repo (branchPlan env.default_branch)).getD [] :=
  search_eq_firstAttempt env repo

/-- Counterexample to C3 as stated: both environments answer the first
branch ("main") with HTTP 200 (a JSON array body), yet the result follows
the later branch "master": it differs between the two environments, and is
non-empty although the first 200 tree holds no candidate. -/
theorem C3_counterexample :
    envC3A.treeResp "r" "main" = envC3B.treeResp "r" "main"
    ∧ envC3A.treeResp "r" "main" =
        Except.ok { status := 200, jsonBody := Except.ok (Val.vlist []) }
    ∧ search_github_files envC3A "r" = ["a.txt"]
    ∧ search_github_files envC3B "r" = [] :=
  ⟨rfl, rfl, by decide, by decide⟩

/-- C4: parse_nodes_from_file dispatches on the lower-cased path suffix:
".yaml" or ".yml" to the Clash YAML parser, ".txt" to the text-link
parser, and ".json" as well as any other suffix to the empty list. -/
theorem C4_dispatch (env : Env) (fp content : String) :
    (strEndsWith (strToLower fp) ".yaml" = true ∨ strEndsWith (strToLower fp) ".yml" = true →
      parse_nodes_from_file env fp content = parse_clash_yaml (env.yamlLoad content))
    ∧ (strEndsWith (strToLower fp) ".yaml" = false → strEndsWith (strToLower fp) ".yml" = false →
        strEndsWith (strToLower fp) ".txt" = true →
        parse_nodes_from_file env fp content = parse_links_from_text content)
    ∧ (strEndsWith (strToLower fp) ".yaml" = false → strEndsWith (strToLower fp) ".yml" = false →
        strEndsWith (strToLower fp) ".txt" = false →
        parse_nodes_from_file env fp content = []) := by
  refine ⟨?_, ?_, ?_⟩
  · intro h
    rw [parse_nodes_from_file, if_pos (by rcases h with h | h <;> simp [h])]
  · intro h1 h2 h3
    rw [parse_nodes_from_file, if_neg (by simp [h1, h2]), if_pos h3]
  · intro h1 h2 h3
    rw [parse_nodes_from_file, if_neg (by simp [h1, h2]), if_neg (by simp [h3])]
    by_cases h4 : strEndsWith (strToLower fp) ".json" = true
    · rw [if_pos h4]
    · rw [if_neg h4]

/-- Witness for C4 at concrete paths of each suffix class. -/
theorem C4_witness :
    parse_nodes_from_file envNone "x.txt" "ss://a" = parse_links_from_text "ss://a"
    ∧ parse_nodes_from_file envNone "d/conf.YML" "c" = parse_clash_yaml (envNone.yamlLoad "c")
    ∧ parse_nodes_from_file envNone "data.json" "c" = [] :=
  ⟨(C4_dispatch envNone "x.txt" "ss://a").2.1 (by decide) (by decide) (by decide),
   (C4_dispatch envNone "d/conf.YML" "c").1 (Or.inr (by decide)),
   (C4_dispatch envNone "data.json" "c").2.2 (by decide) (by decide) (by decide)⟩

/-- C5: parse_clash_yaml returns the empty list when parsing raised or the
document is not a mapping (and, being a total function, never raises);
when the document is a mapping whose "proxies" key holds a list, it
returns exactly one record per entry that is a mapping with truthy server
and truthy port, in order — each record carrying type and name defaulted
to "unknown" when absent or falsy and the whole proxy mapping under
config, as mkClashNode states. -/
theorem C5_parse_clash (kvs : List (String × Val)) (ps : List Val) :
    parse_clash_yaml (Except.error ()) = []
    ∧ (∀ v : Val, v.isDict = false → parse_clash_yaml (Except.ok v) = [])
    ∧ (lookupKV kvs "proxies" = some (Val.vlist ps) →
        parse_clash_yaml (Except.ok (Val.vdict kvs)) =
          (ps.filter (fun p => p.isDict
            && (((p.get "server").getD Val.vnull).truthy
            && ((p.get "port").getD Val.vnull).truthy))).map mkClashNode) := by
  refine ⟨rfl, ?_, ?_⟩
  · intro v hv
    cases v with
    | vdict kvs => simp [Val.isDict] at hv
    | vnull => rfl
    | vbool b => rfl
    | vint i => rfl
    | vstr s => rfl
    | vlist xs => rfl
  · intro h
    have hget : ((Val.vdict kvs).get "proxies").getD Val.vnull = Val.vlist ps := by
      show (lookupKV kvs "proxies").getD Val.vnull = Val.vlist ps
      rw [h]
      rfl
    simp only [parse_clash_yaml, hget]
    cases ps with
    | nil => simp [Val.truthy, pyIter, clashLoop]
    | cons q qs =>
      have ht : (Val.vlist (q :: qs)).truthy = true := by simp [Val.truthy]
      simp only [ht, if_true, pyIter]
      exact clashLoop_eq (q :: qs)

/-- Witness for C5: the failure cases and a concrete one-proxy document. -/
theorem C5_witness :
    parse_clash_yaml (Except.error ()) = []
    ∧ parse_clash_yaml (Except.ok (Val.vstr "nope")) = []
    ∧ parse_clash_yaml (Except.ok (Val.vdict [("proxies", Val.vlist [proxyC8])])) =
        ([proxyC8].filter (fun p => p.isDict
          && (((p.get "server").getD Val.vnull).truthy
          && ((p.get "port").getD Val.vnull).truthy))).map mkClashNode :=
  ⟨(C5_parse_clash [] []).1,
   (C5_parse_clash [] []).2.1 (Val.vstr "nope") rfl,
   (C5_parse_clash [("proxies", Val.vlist [proxyC8])] [proxyC8]).2.2 rfl⟩



/-- C6 (amended): parse_links_from_text returns one record per stripped
input line that starts with a recognised proxy scheme, in input order and
nothing else, and each record stores that stripped line verbatim, as an
opaque undecoded string, under config.link. -/
theorem C6_links_verbatim (content : String) :
    parse_links_from_text content =
      (((pySplitlines content).map pyStrip).filter
        (fun l => linkPrefixes.any (fun pre => strStartsWith l pre))).map mkLinkNode
    ∧ ∀ line : String,
        (mkLinkNode line).get "config" = some (Val.vdict [("link", Val.vstr line)]) :=
  ⟨linksLoop_eq (pySplitlines content), fun _ => rfl⟩

/-- Counterexample to C6 as stated: the input "  ss://abc" is a single line
that does not start with any recognised scheme, yet a record is produced,
and its stored link is the stripped line, not the input line. -/
theorem C6_counterexample :
    pySplitlines "  ss://abc" = ["  ss://abc"]
    ∧ (linkPrefixes.any (fun pre => strStartsWith "  ss://abc" pre)) = false
    ∧ parse_links_from_text "  ss://abc" = [mkLinkNode "ss://abc"]
    ∧ (mkLinkNode "ss://abc").get "config" ≠
        some (Val.vdict [("link", Val.vstr "  ss://abc")]) :=
  ⟨by decide, by decide, by decide, by decide⟩

/-- C7: a successful tree walk returns exactly the paths of the blob items
ending in a candidate extension, in tree order (processItems succeeds with
the filterMap of blobCandidate), and every path search_github_files
returns ends in one of ".yaml", ".yml", ".txt", ".json". -/
theorem C7_blob_candidates (items : List Val) (fs : List String)
    (h : processItems items = Except.ok fs) :
    fs = items.filterMap blobCandidate
    ∧ ∀ (env : Env) (repo p : String), p ∈ search_github_files env repo →
        candidateExts.any (fun e => strEndsWith p e) = true :=
  ⟨processItems_eq items fs h,
   fun env repo p hp => tryBranches_ext env repo _ _ p hp⟩

/-- Witness for C7 at a concrete three-item tree. -/
theorem C7_witness :
    ["conf/a.yaml"] = itemsC7.filterMap blobCandidate
    ∧ ∀ (env : Env) (repo p : String), p ∈ search_github_files env repo →
        candidateExts.any (fun e => strEndsWith p e) = true :=
  C7_blob_candidates itemsC7 ["conf/a.yaml"] rfl

/-- C8 (amended): every record of the two parsers — and hence of
parse_nodes_from_file, crawl_repo and crawl_all — is a dict with exactly
the five fields type, name, server, port, config in that order; type and
name are always truthy, the text-link parser always sets the strings "url"
and "raw-link", and the Clash parser carries the proxy's truthy type and
name values through unchanged (a string only when the proxy supplies a
string, or the default "unknown"). -/
theorem C8_record_fields :
    (∀ (doc : Except Unit Val) (n : Val), n ∈ parse_clash_yaml doc →
        recordFields n = some nodeFields
        ∧ ((n.get "type").getD Val.vnull).truthy = true
        ∧ ((n.get "name").getD Val.vnull).truthy = true)
    ∧ (∀ (content : String) (n : Val), n ∈ parse_links_from_text content →
        recordFields n = some nodeFields
        ∧ n.get "type" = some (Val.vstr "url")
        ∧ n.get "name" = some (Val.vstr "raw-link"))
    ∧ (∀ (env : Env) (fp content : String) (n : Val),
        n ∈ parse_nodes_from_file env fp content → recordFields n = some nodeFields)
    ∧ (∀ (env : Env) (repo : String) (n : Val), n ∈ crawl_repo env repo →
        recordFields n = some nodeFields)
    ∧ (∀ (env : Env) (repos : List String) (n : Val), n ∈ crawl_all env repos →
        recordFields n = some nodeFields) := by
  have hshape : ∀ (env : Env) (fp content : String) (n : Val),
      n ∈ parse_nodes_from_file env fp content → recordFields n = some nodeFields := by
    intro env fp content n h
    rcases mem_parse_nodes_shape env fp content n h with ⟨p, rfl⟩ | ⟨s, rfl⟩
    · rfl
    · rfl
  refine ⟨?_, ?_, hshape, ?_, ?_⟩
  · intro doc n h
    obtain ⟨p, rfl⟩ := mem_parse_clash_shape doc n h
    exact ⟨rfl, orUnknown_truthy _, orUnknown_truthy _⟩
  · intro content n h
    obtain ⟨s, rfl⟩ := mem_linksLoop _ n h
    exact ⟨rfl, rfl, rfl⟩
  · intro env repo n h
    obtain ⟨fp, content, hn⟩ := mem_crawlFilesLoop env repo _ n h
    exact hshape env fp content n hn
  · intro env repos n h
    obtain ⟨repo, hr⟩ := mem_crawlStream env repos n (mem_crawl_all env repos n h)
    obtain ⟨fp, content, hn⟩ := mem_crawlFilesLoop env repo _ n hr
    exact hshape env fp content n hn

/-- Counterexample to C8 as stated: a proxy whose type is the integer 7 is
kept, and the record's type field is the integer 7, not a string. -/
theorem C8_counterexample :
    parse_clash_yaml (Except.ok docC8) = [mkClashNode proxyC8]
    ∧ (mkClashNode proxyC8).get "type" = some (Val.vint 7)
    ∧ (Val.vint 7).isStr = false :=
  ⟨by decide, rfl, rfl⟩

/-- C9 (amended): every record of parse_links_from_text has the single
deduplication key (type "url", server None, port None, name "raw-link"),
so crawl_all keeps at most one record with that full key — at most one
text-link record in total.  (Records with type "url" from the Clash parser
carry their own server, port and name, so they dedup separately.) -/
theorem C9_url_dedup_key (env : Env) (repos : List String) :
    (∀ (content : String) (n : Val), n ∈ parse_links_from_text content →
        nodeKey n = urlNodeKey)
    ∧ (crawl_all env repos).countP (fun n => decide (nodeKey n = urlNodeKey)) ≤ 1 := by
  constructor
  · intro content n h
    obtain ⟨s, rfl⟩ := mem_linksLoop _ n h
    rfl
  · exact countP_le_one_of_pairwise _ _ (crawl_all_pairwise env repos)

/-- Witness for C9 at a concrete link and crawl. -/
theorem C9_witness :
    nodeKey (mkLinkNode "ss://x") = urlNodeKey
    ∧ (crawl_all envC9 ["repo1"]).countP
        (fun n => decide (nodeKey n = urlNodeKey)) ≤ 1 :=
  ⟨(C9_url_dedup_key envC9 ["repo1"]).1 "ss://x" (mkLinkNode "ss://x") (by decide),
   (C9_url_dedup_key envC9 ["repo1"]).2⟩

/-- Counterexample to C9 as stated: one repository whose Clash file
declares a proxy of type "url" and whose text file holds one link leaves
crawl_all with two records whose type field is "url". -/
theorem C9_counterexample :
    (crawl_all envC9 ["repo1"]).countP
      (fun n => decide (n.get "type" = some (Val.vstr "url"))) = 2 := by
  decide

/-- C10: extension matching is case-sensitive in search_github_files but
case-insensitive in parse_nodes_from_file: the path "a.YAML" is never
returned as a candidate, yet parse_nodes_from_file dispatches it to the
Clash YAML parser. -/
theorem C10_case_asymmetry :
    (∀ (env : Env) (repo : String), "a.YAML" ∉ search_github_files env repo)
    ∧ (∀ (env : Env) (content : String),
        parse_nodes_from_file env "a.YAML" content =
          parse_clash_yaml (env.yamlLoad content)) := by
  constructor
  · intro env repo hmem
    have hext := tryBranches_ext env repo _ _ "a.YAML" hmem
    revert hext
    decide
  · intro env content
    rw [parse_nodes_from_file, if_pos (by decide)]

/-- Witness for C10 at a concrete environment. -/
theorem C10_witness :
    "a.YAML" ∉ search_github_files envNone "r"
    ∧ parse_nodes_from_file envNone "a.YAML" "c" =
        parse_clash_yaml (envNone.yamlLoad "c") :=
  ⟨C10_case_asymmetry.1 envNone "r", C10_case_asymmetry.2 envNone "c"⟩

end NodeCrawler
